import Mathlib

/-!
Verification of the report sectionizer of `carv-analyzer`
(`src/Carvtrainer/frontend/src/App.jsx`, function `parseTrainingPlan`,
together with the score-to-color helper `getScoreColor`).

Strings are modelled as `List Char` (`Str`).  Each JavaScript string or
regex operation used by the source is embedded as an executable Lean
function on `Str`, and `parseTrainingPlan` is embedded as a total function
`Str → Option ParsedPlan` mirroring the source line by line.
-/

set_option maxRecDepth 100000

/-- Strings are modelled as lists of characters. -/
abbrev Str := List Char

/-- The whitespace characters recognised by the embedding (the inputs of
this program only ever use space, tab, carriage return and newline). -/
def isWS (c : Char) : Bool :=
  c = ' ' || c = '\t' || c = '\r' || c = '\n'

/-- JavaScript `trimStart`: drop leading whitespace. -/
def trimL (s : Str) : Str := s.dropWhile isWS

/-- JavaScript `trimEnd`: drop trailing whitespace. -/
def trimR (s : Str) : Str := (s.reverse.dropWhile isWS).reverse

/-- JavaScript `String.prototype.trim`. -/
def trim (s : Str) : Str := trimR (trimL s)

/-- JavaScript `String.prototype.split` with a single-character separator
(keeps empty chunks; the empty string yields one empty chunk). -/
def splitOnC (sep : Char) : Str → List Str
  | [] => [[]]
  | c :: cs =>
    match splitOnC sep cs with
    | [] => [[]]
    | l :: ls => if c = sep then [] :: l :: ls else (c :: l) :: ls

/-- `text.split(String.fromCharCode(10))`, the line split used by the source. -/
def splitLines (s : Str) : List Str := splitOnC '\n' s

/-- `lines.join` with a newline separator, as used to store section bodies. -/
def joinLines (ls : List Str) : Str := List.intercalate [ '\n' ] ls

/-- JavaScript `String.prototype.replace` with a plain (non-regex, nonempty)
pattern: replace the first occurrence only. -/
def replaceOnce (pat rep : Str) : Str → Str
  | [] => []
  | c :: cs =>
    if pat.isPrefixOf (c :: cs) then rep ++ (c :: cs).drop pat.length
    else c :: replaceOnce pat rep cs

/-- JavaScript `s.replace(doubleStarRegexGlobal, emptyString)`: remove every
occurrence of two consecutive asterisks. -/
def stripBold : Str → Str
  | '*' :: '*' :: cs => stripBold cs
  | c :: cs => c :: stripBold cs
  | [] => []

/-- JavaScript `s.replace(leadingDashRegex, emptyString)` for the regex
`^-\s*`: if the string starts with a dash, remove it and the following
whitespace run; otherwise leave the string unchanged. -/
def stripDashWS : Str → Str
  | '-' :: cs => cs.dropWhile isWS
  | s => s

/-- Remove every character belonging to `bad` (a JS global character-class
replace with the empty string). -/
def removeChars (bad : List Char) (s : Str) : Str :=
  s.filter (fun c => !bad.contains c)

/-- Replace every character belonging to `bad` by a space (a JS global
character-class replace with a one-space replacement). -/
def charsToSpace (bad : List Char) (s : Str) : Str :=
  s.map (fun c => if bad.contains c then ' ' else c)

/-- Case-insensitive literal prefix match: `pat` is given in lower case;
on success return the rest of the string after the matched prefix. -/
def dropCI (pat : Str) (s : Str) : Option Str :=
  match pat, s with
  | [], s => some s
  | _ :: _, [] => none
  | p :: ps, c :: cs => if c.toLower = p then dropCI ps cs else none

/-- JavaScript `String.prototype.includes` (substring containment). -/
def containsSub (s pat : Str) : Bool :=
  match s with
  | [] => pat.isEmpty
  | _ :: rest => pat.isPrefixOf s || containsSub rest pat

/-- Lower-case a string character by character (ASCII inputs). -/
def toLowerStr (s : Str) : Str := s.map Char.toLower

/-- First component of the association list with the given key (JS object
property lookup on the raw-sections object). -/
def lookupRaw (k : Str) : List (Str × Str) → Option Str
  | [] => none
  | (k', v) :: rest => if k' = k then some v else lookupRaw k rest

/-- JS object property assignment: update the value in place if the key is
already present (keeping its position), else append the new pair. -/
def upsert (m : List (Str × Str)) (k v : Str) : List (Str × Str) :=
  match m with
  | [] => [(k, v)]
  | (k', v') :: rest => if k' = k then (k, v) :: rest else (k', v') :: upsert rest k v

/-- The arrow character used by the `Current: a → b` pattern (U+2192). -/
def arrowC : Char := '→'

/-- The en-dash character appearing in the punctuation classes (U+2013). -/
def endash : Char := '–'

/-- The ASCII apostrophe, written by code point to build string patterns. -/
def apos : Char := Char.ofNat 39

/-- Literal prefix match returning the rest after the pattern. -/
def dropLit (pat : Str) (s : Str) : Option Str :=
  if pat.isPrefixOf s then some (s.drop pat.length) else none

/-- Position scan for a character: drop everything up to and including the
first occurrence of `t`; `none` when `t` does not occur. -/
def dropThroughChar (t : Char) : Str → Option Str
  | [] => none
  | c :: cs => if c = t then some cs else dropThroughChar t cs

/-- JavaScript `s.replace(leadBoldLabelRegex, emptyString)` for the regex
`^\*\*.*?\*\*:?\s*`: when the string opens with a bold label, remove the
label, an optional colon and following whitespace. -/
def afterBoldClose : Str → Option Str
  | '*' :: '*' :: cs => some cs
  | _ :: cs => afterBoldClose cs
  | [] => none

def stripLeadBoldLabel (s : Str) : Str :=
  match s with
  | '*' :: '*' :: rest =>
    match afterBoldClose rest with
    | some after =>
      let after :=
        match after with
        | ':' :: t => t
        | t => t
      after.dropWhile isWS
    | none => s
  | _ => s

/-- JavaScript `s.replace(bracketSpanRegexGlobal, emptyString)` for the regex
on bracketed spans (lazy): remove each span from an opening bracket through
the next closing bracket; an opening bracket with no later closing bracket
is left in place. -/
def removeBracketsF : Nat → Str → Str
  | 0, s => s
  | _, [] => []
  | fuel + 1, c :: cs =>
    if c = '[' then
      if cs.contains ']' then
        removeBracketsF fuel ((cs.dropWhile (fun x => x != ']')).drop 1)
      else c :: cs
    else c :: removeBracketsF fuel cs

def removeBrackets (s : Str) : Str := removeBracketsF s.length s

/-- Shared bullet extraction of the list-valued fields: keep the lines whose
trimmed content starts with a dash, strip a leading dash-plus-whitespace run
(anchored at the very start of the line) and trim. -/
def bulletLines (content : Str) : List Str :=
  ((splitLines content).filter (fun l => "-".data.isPrefixOf (trim l))).map
    (fun l => trim (stripDashWS l))

/-- Generic embedding of `String.prototype.split` with a regex: `m` decides
whether a match starts at the current position (returning the rest after the
match); fuelled by the length of the string. -/
def splitByMF (m : Str → Option Str) : Nat → Str → List Str
  | _, [] => [[]]
  | 0, s => [s]
  | fuel + 1, c :: cs =>
    match m (c :: cs) with
    | some rest => [] :: splitByMF m fuel rest
    | none =>
      match splitByMF m fuel cs with
      | [] => [[]]
      | l :: ls => (c :: l) :: ls

def splitByMatcher (m : Str → Option Str) (s : Str) : List Str :=
  splitByMF m s.length s

/-- Matcher for the sub-block boundary regex on priorities (three hashes,
whitespace, the word for a priority case-insensitively, whitespace, one or
more digits). -/
def matchPriorityAt (s : Str) : Option Str := do
  let s1 ← dropLit "###".data s
  let s2 := s1.dropWhile isWS
  let s3 ← dropCI "priority".data s2
  let s4 := s3.dropWhile isWS
  let ds := s4.takeWhile Char.isDigit
  if ds.isEmpty then none else some (s4.drop ds.length)

/-- Matcher for the drill sub-block boundary regex. -/
def matchDrillAt (s : Str) : Option Str := do
  let s1 ← dropLit "###".data s
  let s2 := s1.dropWhile isWS
  let s3 ← dropCI "drill".data s2
  let s4 := s3.dropWhile isWS
  let ds := s4.takeWhile Char.isDigit
  if ds.isEmpty then none else some (s4.drop ds.length)

/-- Matcher for the day sub-block boundary regex. -/
def matchDayAt (s : Str) : Option Str := do
  let s1 ← dropLit "###".data s
  let s2 := s1.dropWhile isWS
  let s3 ← dropCI "day".data s2
  let s4 := s3.dropWhile isWS
  let ds := s4.takeWhile Char.isDigit
  if ds.isEmpty then none else some (s4.drop ds.length)

/-- One attempt of the current-and-target regex at the present position:
the word `Current:` case-insensitively, whitespace, a digit run, anything up
to an arrow, anything up to a digit run. -/
def tryCurrentAt (s : Str) : Option (Str × Str) := do
  let s1 ← dropCI "current:".data s
  let s2 := s1.dropWhile isWS
  let ds := s2.takeWhile Char.isDigit
  if ds.isEmpty then none else
  let s3 := s2.drop ds.length
  let s4 ← dropThroughChar arrowC s3
  let s5 := s4.dropWhile (fun c => !c.isDigit)
  let ds2 := s5.takeWhile Char.isDigit
  if ds2.isEmpty then none else some (ds, ds2)

def matchCurrentF : Nat → Str → Option (Str × Str)
  | 0, _ => none
  | _, [] => none
  | fuel + 1, s =>
    match tryCurrentAt s with
    | some r => some r
    | none => matchCurrentF fuel s.tail

def matchCurrent (s : Str) : Option (Str × Str) := matchCurrentF s.length s

/-- Cleaning applied to every detail line (leading dash run, then a leading
bold label, then trim). -/
def detailClean (l : Str) : Str := trim (stripLeadBoldLabel (stripDashWS l))

/-- The priority records of the week-plan field. -/
structure Priority where
  name : Str := []
  current : Str := []
  target : Str := []
  drill : Str := []
  terrain : Str := []
  details : List Str := []
deriving DecidableEq

def priorityStep (p : Priority) (line : Str) : Priority :=
  let p :=
    if containsSub line "Current:".data && containsSub line [ arrowC ] then
      match matchCurrent line with
      | some (c, t) => { p with current := c, target := t }
      | none => p
    else p
  let p :=
    if containsSub line ":".data then
      let parts := (splitOnC ':' line).map trim
      let label := parts.getD 0 []
      let value := parts.getD 1 []
      let p :=
        if containsSub (toLowerStr label) "drill".data then { p with drill := stripBold value } else p
      let p :=
        if containsSub (toLowerStr label) "terrain".data then { p with terrain := stripBold value } else p
      let p :=
        if p.name.isEmpty && "###".data.isPrefixOf line then
          { p with name := trim (removeBrackets (replaceOnce "###".data [] line)) }
        else p
      p
    else p
  { p with details := p.details ++ [ detailClean line ] }

def mkPriority (block : Str) : Priority :=
  let lines := (splitLines block).filter (fun l => !(trim l).isEmpty)
  let p := lines.foldl priorityStep {}
  if p.name.isEmpty then
    match lines with
    | l0 :: _ => { p with name := trim (removeChars [ ':', '[', ']', '#', '*' ] l0) }
    | [] => p
  else p

def weekPlanOf (content : Str) : List Priority :=
  (((splitByMatcher matchPriorityAt content).filter (fun b => !(trim b).isEmpty)).map
      mkPriority).filter
    (fun p => !p.name.isEmpty || !p.drill.isEmpty)

/-- Removal of the four focus words (case-insensitive, global). -/
def removeFocusF : Nat → Str → Str
  | 0, s => s
  | _, [] => []
  | fuel + 1, c :: cs =>
    match dropCI "primary focus".data (c :: cs) with
    | some r => removeFocusF fuel r
    | none =>
      match dropCI "secondary focus".data (c :: cs) with
      | some r => removeFocusF fuel r
      | none =>
        match dropCI "integration".data (c :: cs) with
        | some r => removeFocusF fuel r
        | none =>
          match dropCI "refinement".data (c :: cs) with
          | some r => removeFocusF fuel r
          | none => c :: removeFocusF fuel cs

def removeFocusWords (s : Str) : Str := removeFocusF s.length s

/-- First occurrence of one of the four focus words, returned as it appears
in the line (the regex capture). -/
def findFocusF : Nat → Str → Option Str
  | 0, _ => none
  | _, [] => none
  | fuel + 1, s =>
    if (dropCI "primary focus".data s).isSome then some (s.take 13)
    else if (dropCI "secondary focus".data s).isSome then some (s.take 15)
    else if (dropCI "integration".data s).isSome then some (s.take 11)
    else if (dropCI "refinement".data s).isSome then some (s.take 10)
    else findFocusF fuel s.tail

def findFocus (s : Str) : Option Str := findFocusF s.length s

/-- The drill records of the key-drills field. -/
structure Drill where
  name : Str := []
  focus : Str := []
  targetMetric : Str := []
  why : Str := []
  execution : Str := []
  runsPerSession : Str := []
  turnsPerRun : Str := []
  terrain : Str := []
  successFeels : Str := []
  commonMistake : Str := []
  progression : Str := []
deriving DecidableEq

def drillStep (first : Option Str) (d : Drill) (line : Str) : Drill :=
  let cleanLine := stripBold (stripDashWS line)
  let d :=
    if containsSub line ":".data then
      let label := toLowerStr (cleanLine.takeWhile (fun c => c != ':'))
      let value := trim ((cleanLine.dropWhile (fun c => c != ':')).drop 1)
      let d := if containsSub label "target metric".data then { d with targetMetric := value } else d
      let d := if containsSub label "why this drill".data then { d with why := value } else d
      let d := if containsSub label "execution".data then { d with execution := value } else d
      let d := if containsSub label "runs per session".data then { d with runsPerSession := value } else d
      let d := if containsSub label "turns per run".data then { d with turnsPerRun := value } else d
      let d := if containsSub label "terrain".data then { d with terrain := value } else d
      let d := if containsSub label "success feels".data then { d with successFeels := value } else d
      let d := if containsSub label "common mistake".data then { d with commonMistake := value } else d
      let d := if containsSub label "progression".data then { d with progression := value } else d
      d
    else d
  if d.name.isEmpty && first == some line then
    let d := { d with name := trim (removeFocusWords (charsToSpace [ ':', '-', endash ] cleanLine)) }
    match findFocus line with
    | some f => { d with focus := f }
    | none => d
  else d

def mkDrill (block : Str) : Drill :=
  let lines := (splitLines block).filter (fun l => !(trim l).isEmpty)
  lines.foldl (drillStep lines.head?) {}

def drillsOf (content : Str) : List Drill :=
  (((splitByMatcher matchDrillAt content).filter (fun b => !(trim b).isEmpty)).map
      mkDrill).filter
    (fun d => !d.name.isEmpty || !d.execution.isEmpty)

/-- Matcher for the split pattern of the daily plan (bold marker, the word
for a run case-insensitively, whitespace, one or more digits or dashes). -/
def matchRunBoldAt (s : Str) : Option Str := do
  let s1 ← dropLit "**".data s
  let s2 ← dropCI "run".data s1
  let s3 := s2.dropWhile isWS
  let ds := s3.takeWhile (fun c => c.isDigit || c == '-')
  if ds.isEmpty then none else some (s3.drop ds.length)

/-- Matcher for a whole bold run header (the global-match regex): the split
pattern followed by non-asterisk characters and a closing bold marker;
returns the matched text and the rest. -/
def matchRunHeaderAt (s : Str) : Option (Str × Str) := do
  let rest1 ← matchRunBoldAt s
  let mid := rest1.takeWhile (fun c => c != '*')
  let rest2 ← dropLit "**".data (rest1.drop mid.length)
  some (s.take (s.length - rest2.length), rest2)

def allRunHeadersF : Nat → Str → List Str
  | 0, _ => []
  | _, [] => []
  | fuel + 1, s =>
    match matchRunHeaderAt s with
    | some (m, rest) => m :: allRunHeadersF fuel rest
    | none => allRunHeadersF fuel s.tail

def allRunHeaders (s : Str) : List Str := allRunHeadersF s.length s

/-- First occurrence of a run number (the word for a run case-insensitively,
whitespace, a nonempty digit-or-dash run, captured). -/
def tryRunNumAt (s : Str) : Option Str := do
  let s1 ← dropCI "run".data s
  let s2 := s1.dropWhile isWS
  let ds := s2.takeWhile (fun c => c.isDigit || c == '-')
  if ds.isEmpty then none else some ds

def findRunNumF : Nat → Str → Option Str
  | 0, _ => none
  | _, [] => none
  | fuel + 1, s =>
    match tryRunNumAt s with
    | some ds => some ds
    | none => findRunNumF fuel s.tail

/-- First phase text of a header: the first colon after which at least one
non-asterisk character follows; the captured text runs to the first asterisk
and is trimmed. -/
def findPhaseF : Nat → Str → Option Str
  | 0, _ => none
  | _, [] => none
  | fuel + 1, c :: cs =>
    if c = ':' then
      let t := cs.takeWhile (fun x => x != '*')
      if t.isEmpty then findPhaseF fuel cs else some (trim t)
    else findPhaseF fuel cs

/-- The run records of the daily plan. -/
structure DailyRun where
  runs : Str := []
  phase : Str := []
  details : List Str := []
deriving DecidableEq

def dailyPlanOf (content : Str) : List DailyRun :=
  let runBlocks := (splitByMatcher matchRunBoldAt content).filter (fun b => !(trim b).isEmpty)
  let runMatches := allRunHeaders content
  runMatches.enum.map (fun ih =>
    { runs := (findRunNumF ih.2.length ih.2).getD []
      phase := (findPhaseF ih.2.length ih.2).getD []
      details := bulletLines (runBlocks.getD (ih.1 + 1) []) })

/-- The day records of the weekly schedule. -/
structure DayPlan where
  dayNum : Nat := 0
  name : Str := []
  primaryFocus : Str := []
  secondary : Str := []
  terrain : Str := []
  goal : Str := []
  details : List Str := []
deriving DecidableEq

def dayStep (first : Option Str) (d : DayPlan) (line : Str) : DayPlan :=
  let cleanLine := stripBold (stripDashWS line)
  let d :=
    if containsSub line ":".data then
      let label := toLowerStr (cleanLine.takeWhile (fun c => c != ':'))
      let value := trim ((cleanLine.dropWhile (fun c => c != ':')).drop 1)
      let d := if containsSub label "primary focus".data then { d with primaryFocus := value } else d
      let d := if containsSub label "secondary".data then { d with secondary := value } else d
      let d := if containsSub label "terrain".data then { d with terrain := value } else d
      let d := if containsSub label "goal".data then { d with goal := value } else d
      let d :=
        if containsSub label "add".data then
          { d with details := d.details ++ [ "Add: ".data ++ value ] }
        else d
      d
    else d
  if d.name.isEmpty && first == some line then
    { d with name := trim (charsToSpace [ ':', '-', endash ] cleanLine) }
  else d

def mkDay (idx : Nat) (block : Str) : DayPlan :=
  let lines := (splitLines block).filter (fun l => !(trim l).isEmpty)
  lines.foldl (dayStep lines.head?) { dayNum := idx + 1 }

def weeklyScheduleOf (content : Str) : List DayPlan :=
  ((((splitByMatcher matchDayAt content).filter (fun b => !(trim b).isEmpty)).enum.map
      (fun ib => mkDay ib.1 ib.2)).filter
    (fun d => !d.name.isEmpty || !d.primaryFocus.isEmpty))

/-- Everything up to (excluding) the next three-hash marker, or the whole
string when none occurs (the lazy any-character run with the lookahead). -/
def takeUntilHashes : Str → Str
  | [] => []
  | c :: cs => if "###".data.isPrefixOf (c :: cs) then [] else c :: takeUntilHashes cs

/-- One attempt of a week-range header match at the present position,
returning the whole matched text (header plus lazy body). -/
def tryWeekAt (w1 w2 : Char) (s : Str) : Option Str := do
  let s1 ← dropLit "###".data s
  let s2 := s1.dropWhile isWS
  let s3 ← dropCI "week".data s2
  let s4 := s3.dropWhile isWS
  let s5 ←
    match s4 with
    | c :: cs => if c = w1 then some cs else none
    | [] => none
  let s6 ←
    match s5 with
    | c :: cs => if c = '-' || c = endash then some cs else none
    | [] => none
  let s7 ←
    match s6 with
    | c :: cs => if c = w2 then some cs else none
    | [] => none
  some (s.take (s.length - s7.length) ++ takeUntilHashes s7)

def findWeekBlockF (w1 w2 : Char) : Nat → Str → Option Str
  | 0, _ => none
  | _, [] => none
  | fuel + 1, s =>
    match tryWeekAt w1 w2 s with
    | some m => some m
    | none => findWeekBlockF w1 w2 fuel s.tail

def findWeekBlock (w1 w2 : Char) (s : Str) : Option Str :=
  findWeekBlockF w1 w2 s.length s

/-- The run-activity records of the session plan. -/
structure SessionRun where
  run : Str := []
  activity : Str := []
deriving DecidableEq

/-- One attempt of the bold session-line regex at the present position:
bold marker, captured run token, closing bold marker, optional colon,
whitespace, rest of the line. -/
def tryBoldRunAt (s : Str) : Option (Str × Str) := do
  let s1 ← dropLit "**".data s
  let s2 ← dropCI "run".data s1
  let s3 := s2.dropWhile isWS
  let ds := s3.takeWhile (fun c => c.isDigit || c == '-')
  if ds.isEmpty then none else
  let s4 := s3.drop ds.length
  let s5 ← dropLit "**".data s4
  let s6 :=
    match s5 with
    | ':' :: t => t
    | t => t
  some (s1.take (3 + (s2.length - s3.length) + ds.length), s6.dropWhile isWS)

def findBoldRunF : Nat → Str → Option (Str × Str)
  | 0, _ => none
  | _, [] => none
  | fuel + 1, s =>
    match tryBoldRunAt s with
    | some r => some r
    | none => findBoldRunF fuel s.tail

/-- One attempt of the plain session-line regex at the present position. -/
def tryPlainRunAt (s : Str) : Option (Str × Str) := do
  let s2 ← dropCI "run".data s
  let s3 := s2.dropWhile isWS
  let ds := s3.takeWhile (fun c => c.isDigit || c == '-')
  if ds.isEmpty then none else
  let s4 := s3.drop ds.length
  let s5 :=
    match s4 with
    | ':' :: t => t
    | t => t
  some (s.take (3 + (s2.length - s3.length) + ds.length), s5.dropWhile isWS)

def findPlainRunF : Nat → Str → Option (Str × Str)
  | 0, _ => none
  | _, [] => none
  | fuel + 1, s =>
    match tryPlainRunAt s with
    | some r => some r
    | none => findPlainRunF fuel s.tail

def sessionPlanOf (content : Str) : List SessionRun :=
  (((splitLines content).filter
      (fun l => ("**".data.isPrefixOf (trim l)) || ("Run".data.isPrefixOf (trim l)))).map
    (fun l =>
      match findBoldRunF l.length l with
      | some ra => ({ run := ra.1, activity := stripBold ra.2 } : SessionRun)
      | none =>
        match findPlainRunF l.length l with
        | some ra => { run := ra.1, activity := stripBold ra.2 }
        | none => { run := [], activity := trim (stripBold l) })).filter
    (fun s => !s.activity.isEmpty)

/-- The record stored under the immediate-focus field. -/
structure ImmediateFocus where
  drill : Str := []
  cue : Str := []
  details : List Str := []
deriving DecidableEq

/-- Guard of the cue assignment inside the immediate-focus extraction. -/
def cueLine (l : Str) : Bool :=
  containsSub l "Mental cue".data || containsSub l "mental cue".data ||
    containsSub l "Cue:".data

/-- Drop everything up to and including the first colon or double quote. -/
def dropThroughCQ : Str → Option Str
  | [] => none
  | c :: cs => if c = ':' || c = '"' then some cs else dropThroughCQ cs

/-- The cue text of a matching line: remove the lazy run up to the first
colon or double quote together with following whitespace, then remove every
double quote, then trim. -/
def cueOf (l : Str) : Str :=
  let base :=
    match dropThroughCQ l with
    | some rest => rest.dropWhile isWS
    | none => l
  trim (removeChars [ '"' ] base)

/-- The two bullet lists of the progression field. -/
structure ProgressionPlan where
  week1_2 : List Str := []
  week3_4 : List Str := []
deriving DecidableEq

/-- The structured output of the parser; every field defaults to an empty
string, empty sequence or empty record. -/
structure ParsedPlan where
  title : Str := []
  bigPicture : List Str := []
  immediateFocus : ImmediateFocus := {}
  drills : List Drill := []
  dailyPlan : List DailyRun := []
  weeklySchedule : List DayPlan := []
  weekPlan : List Priority := []
  strengths : List Str := []
  progression : ProgressionPlan := {}
  sessionPlan : List SessionRun := []
  checkpoints : List Str := []
  mentalCues : List Str := []
  traps : List Str := []
  rawSections : List (Str × Str) := []
deriving DecidableEq

/-- The heading-keyword patterns of the classification table. -/
def pBigPicture : Str := "big picture".data
def pImmediateFocus : Str := "immediate focus".data
def pGamePlan : Str := "week".data ++ [ apos ] ++ "s game plan".data
def pWeekPlan : Str := "week plan".data
def pPriorities : Str := "priorities".data
def pStrength : Str := "building on strength".data
def pDrills : Str := "3 key drills".data
def pYourDrills : Str := "your 3 key drills".data
def pDailySession : Str := "daily session plan".data
def pDailyPlan : Str := "daily plan".data
def pWeeklyTraining : Str := "weekly training schedule".data
def pWeeklySchedule : Str := "weekly schedule".data
def pProgressionWord : Str := "progression".data
def pFourWeek : Str := "4-week".data
def pSessionPlan : Str := "session plan".data
def pSampleSession : Str := "sample session".data
def pCheckpoint : Str := "checkpoint".data
def pProgressWord : Str := "progress".data
def pMentalCue : Str := "mental cue".data
def pTrap : Str := "trap".data
def pAvoid : Str := "avoid".data

/-- First of the independent keyword tests applied to one raw section. -/
def secBigPicture (content kl : Str) (p : ParsedPlan) : ParsedPlan :=
  if containsSub kl pBigPicture then { p with bigPicture := bulletLines content } else p

def secImmediateFocus (content kl : Str) (p : ParsedPlan) : ParsedPlan :=
  if containsSub kl pImmediateFocus then
    let ls := (splitLines content).filter (fun l => !(trim l).isEmpty)
    let cue := ls.foldl (fun c l => if cueLine l then cueOf l else c) p.immediateFocus.cue
    let det := (ls.map detailClean).filter (fun l => !l.isEmpty && !("#".data.isPrefixOf l))
    { p with immediateFocus := { p.immediateFocus with cue := cue, details := det } }
  else p

def secWeekPlan (content kl : Str) (p : ParsedPlan) : ParsedPlan :=
  if containsSub kl pGamePlan || containsSub kl pWeekPlan || containsSub kl pPriorities then
    { p with weekPlan := weekPlanOf content }
  else p

def secStrengths (content kl : Str) (p : ParsedPlan) : ParsedPlan :=
  if containsSub kl pStrength then { p with strengths := bulletLines content } else p

def secDrills (content kl : Str) (p : ParsedPlan) : ParsedPlan :=
  if containsSub kl pDrills || containsSub kl pYourDrills then
    { p with drills := drillsOf content }
  else p

def secDailyPlan (content kl : Str) (p : ParsedPlan) : ParsedPlan :=
  if containsSub kl pDailySession || containsSub kl pDailyPlan then
    { p with dailyPlan := dailyPlanOf content }
  else p

def secWeeklySchedule (content kl : Str) (p : ParsedPlan) : ParsedPlan :=
  if containsSub kl pWeeklyTraining || containsSub kl pWeeklySchedule then
    { p with weeklySchedule := weeklyScheduleOf content }
  else p

def secProgression (content kl : Str) (p : ParsedPlan) : ParsedPlan :=
  if containsSub kl pProgressionWord || containsSub kl pFourWeek then
    let w1 := findWeekBlock '1' '2' content
    let w3 := findWeekBlock '3' '4' content
    let week12 := match w1 with | some t => bulletLines t | none => p.progression.week1_2
    let week34 := match w3 with | some t => bulletLines t | none => p.progression.week3_4
    { p with progression := { week1_2 := week12, week3_4 := week34 } }
  else p

def secSessionPlan (content kl : Str) (p : ParsedPlan) : ParsedPlan :=
  if containsSub kl pSessionPlan || containsSub kl pSampleSession then
    { p with sessionPlan := sessionPlanOf content }
  else p

def secCheckpoints (content kl : Str) (p : ParsedPlan) : ParsedPlan :=
  if containsSub kl pCheckpoint || containsSub kl pProgressWord then
    { p with checkpoints := bulletLines content }
  else p

def secMentalCues (content kl : Str) (p : ParsedPlan) : ParsedPlan :=
  if containsSub kl pMentalCue then { p with mentalCues := bulletLines content } else p

def secTraps (content kl : Str) (p : ParsedPlan) : ParsedPlan :=
  if containsSub kl pTrap || containsSub kl pAvoid then { p with traps := bulletLines content } else p

/-- Per-section classification and extraction: the sequence of independent
keyword tests applied to one raw section (in the order of the source),
updating the accumulated plan. -/
def applySection (p : ParsedPlan) (kv : Str × Str) : ParsedPlan :=
  let content := kv.2
  let kl := toLowerStr kv.1
  secTraps content kl
    (secMentalCues content kl
      (secCheckpoints content kl
        (secSessionPlan content kl
          (secProgression content kl
            (secWeeklySchedule content kl
              (secDailyPlan content kl
                (secDrills content kl
                  (secStrengths content kl
                    (secWeekPlan content kl
                      (secImmediateFocus content kl
                        (secBigPicture content kl p)))))))))))

/-- State of the line scan (title so far, heading and body of the open
section, raw sections object). -/
structure ScanState where
  title : Str := []
  current : Str := []
  content : List Str := []
  raw : List (Str × Str) := []
deriving DecidableEq

/-- One step of the line scan, mirroring the branch order of the loop:
title line, section heading, sub-heading, plain line. -/
def scanStep (s : ScanState) (line : Str) : ScanState :=
  if "# ".data.isPrefixOf line then
    { s with title := trim (replaceOnce "# ".data [] line) }
  else if "## ".data.isPrefixOf line then
    { s with
      raw := if s.current.isEmpty then s.raw else upsert s.raw s.current (joinLines s.content)
      current := trim (replaceOnce "## ".data [] line)
      content := [] }
  else if "### ".data.isPrefixOf line then
    { s with content := s.content ++ [ line ] }
  else
    { s with content := s.content ++ [ line ] }

/-- Saving of the last open section after the loop. -/
def scanFlush (s : ScanState) : ScanState :=
  if s.current.isEmpty then s
  else { s with raw := upsert s.raw s.current (joinLines s.content) }

def scanDoc (ls : List Str) : ScanState := scanFlush (ls.foldl scanStep {})

/-- The parse of a nonempty document given as its list of lines. -/
def parseLines (ls : List Str) : ParsedPlan :=
  let st := scanDoc ls
  st.raw.foldl applySection { title := st.title, rawSections := st.raw }

/-- The embedding of the whole parser: a falsy (empty) input short-circuits
to an absent result, everything else is parsed. -/
def parseTrainingPlan (text : Str) : Option ParsedPlan :=
  if text.isEmpty then none else some (parseLines (splitLines text))

/-- The score-to-color helper: an absent score (null or undefined) maps to
the unknown class, otherwise the two thresholds partition the numbers. -/
def getScoreColor (score : Option ℚ) : Str :=
  match score with
  | none => "score-unknown".data
  | some s =>
    if s ≥ 70 then "score-good".data
    else if s ≥ 50 then "score-medium".data
    else "score-poor".data

example : trim "  ab c  ".data = "ab c".data := by decide
example : splitLines "a\n\nb".data = [ "a".data, [], "b".data ] := by decide
example : replaceOnce "# ".data [] "# a # b".data = "a # b".data := by decide
example : stripBold "**a**b*".data = "ab*".data := by decide
example : stripDashWS "-  x".data = "x".data := by decide
example : stripDashWS "  - x".data = "  - x".data := by decide
example : (dropCI "priority".data "PrIoRiTy 1".data) = some " 1".data := by decide
example : containsSub "this week priorities".data "priorities".data = true := by decide

/-! ### Projection lemmas for the per-keyword extraction steps -/

@[simp] lemma secBigPicture_title (c kl : Str) (p : ParsedPlan) :
    (secBigPicture c kl p).title = p.title := by
  unfold secBigPicture; split <;> rfl

@[simp] lemma secImmediateFocus_title (c kl : Str) (p : ParsedPlan) :
    (secImmediateFocus c kl p).title = p.title := by
  unfold secImmediateFocus; split <;> rfl

@[simp] lemma secWeekPlan_title (c kl : Str) (p : ParsedPlan) :
    (secWeekPlan c kl p).title = p.title := by
  unfold secWeekPlan; split <;> rfl

@[simp] lemma secStrengths_title (c kl : Str) (p : ParsedPlan) :
    (secStrengths c kl p).title = p.title := by
  unfold secStrengths; split <;> rfl

@[simp] lemma secDrills_title (c kl : Str) (p : ParsedPlan) :
    (secDrills c kl p).title = p.title := by
  unfold secDrills; split <;> rfl

@[simp] lemma secDailyPlan_title (c kl : Str) (p : ParsedPlan) :
    (secDailyPlan c kl p).title = p.title := by
  unfold secDailyPlan; split <;> rfl

@[simp] lemma secWeeklySchedule_title (c kl : Str) (p : ParsedPlan) :
    (secWeeklySchedule c kl p).title = p.title := by
  unfold secWeeklySchedule; split <;> rfl

@[simp] lemma secProgression_title (c kl : Str) (p : ParsedPlan) :
    (secProgression c kl p).title = p.title := by
  unfold secProgression; split <;> rfl

@[simp] lemma secSessionPlan_title (c kl : Str) (p : ParsedPlan) :
    (secSessionPlan c kl p).title = p.title := by
  unfold secSessionPlan; split <;> rfl

@[simp] lemma secCheckpoints_title (c kl : Str) (p : ParsedPlan) :
    (secCheckpoints c kl p).title = p.title := by
  unfold secCheckpoints; split <;> rfl

@[simp] lemma secMentalCues_title (c kl : Str) (p : ParsedPlan) :
    (secMentalCues c kl p).title = p.title := by
  unfold secMentalCues; split <;> rfl

@[simp] lemma secTraps_title (c kl : Str) (p : ParsedPlan) :
    (secTraps c kl p).title = p.title := by
  unfold secTraps; split <;> rfl

@[simp] lemma secBigPicture_raw (c kl : Str) (p : ParsedPlan) :
    (secBigPicture c kl p).rawSections = p.rawSections := by
  unfold secBigPicture; split <;> rfl

@[simp] lemma secImmediateFocus_raw (c kl : Str) (p : ParsedPlan) :
    (secImmediateFocus c kl p).rawSections = p.rawSections := by
  unfold secImmediateFocus; split <;> rfl

@[simp] lemma secWeekPlan_raw (c kl : Str) (p : ParsedPlan) :
    (secWeekPlan c kl p).rawSections = p.rawSections := by
  unfold secWeekPlan; split <;> rfl

@[simp] lemma secStrengths_raw (c kl : Str) (p : ParsedPlan) :
    (secStrengths c kl p).rawSections = p.rawSections := by
  unfold secStrengths; split <;> rfl

@[simp] lemma secDrills_raw (c kl : Str) (p : ParsedPlan) :
    (secDrills c kl p).rawSections = p.rawSections := by
  unfold secDrills; split <;> rfl

@[simp] lemma secDailyPlan_raw (c kl : Str) (p : ParsedPlan) :
    (secDailyPlan c kl p).rawSections = p.rawSections := by
  unfold secDailyPlan; split <;> rfl

@[simp] lemma secWeeklySchedule_raw (c kl : Str) (p : ParsedPlan) :
    (secWeeklySchedule c kl p).rawSections = p.rawSections := by
  unfold secWeeklySchedule; split <;> rfl

@[simp] lemma secProgression_raw (c kl : Str) (p : ParsedPlan) :
    (secProgression c kl p).rawSections = p.rawSections := by
  unfold secProgression; split <;> rfl

@[simp] lemma secSessionPlan_raw (c kl : Str) (p : ParsedPlan) :
    (secSessionPlan c kl p).rawSections = p.rawSections := by
  unfold secSessionPlan; split <;> rfl

@[simp] lemma secCheckpoints_raw (c kl : Str) (p : ParsedPlan) :
    (secCheckpoints c kl p).rawSections = p.rawSections := by
  unfold secCheckpoints; split <;> rfl

@[simp] lemma secMentalCues_raw (c kl : Str) (p : ParsedPlan) :
    (secMentalCues c kl p).rawSections = p.rawSections := by
  unfold secMentalCues; split <;> rfl

@[simp] lemma secTraps_raw (c kl : Str) (p : ParsedPlan) :
    (secTraps c kl p).rawSections = p.rawSections := by
  unfold secTraps; split <;> rfl

@[simp] lemma secBigPicture_checkpoints (c kl : Str) (p : ParsedPlan) :
    (secBigPicture c kl p).checkpoints = p.checkpoints := by
  unfold secBigPicture; split <;> rfl

@[simp] lemma secImmediateFocus_checkpoints (c kl : Str) (p : ParsedPlan) :
    (secImmediateFocus c kl p).checkpoints = p.checkpoints := by
  unfold secImmediateFocus; split <;> rfl

@[simp] lemma secWeekPlan_checkpoints (c kl : Str) (p : ParsedPlan) :
    (secWeekPlan c kl p).checkpoints = p.checkpoints := by
  unfold secWeekPlan; split <;> rfl

@[simp] lemma secStrengths_checkpoints (c kl : Str) (p : ParsedPlan) :
    (secStrengths c kl p).checkpoints = p.checkpoints := by
  unfold secStrengths; split <;> rfl

@[simp] lemma secDrills_checkpoints (c kl : Str) (p : ParsedPlan) :
    (secDrills c kl p).checkpoints = p.checkpoints := by
  unfold secDrills; split <;> rfl

@[simp] lemma secDailyPlan_checkpoints (c kl : Str) (p : ParsedPlan) :
    (secDailyPlan c kl p).checkpoints = p.checkpoints := by
  unfold secDailyPlan; split <;> rfl

@[simp] lemma secWeeklySchedule_checkpoints (c kl : Str) (p : ParsedPlan) :
    (secWeeklySchedule c kl p).checkpoints = p.checkpoints := by
  unfold secWeeklySchedule; split <;> rfl

@[simp] lemma secProgression_checkpoints (c kl : Str) (p : ParsedPlan) :
    (secProgression c kl p).checkpoints = p.checkpoints := by
  unfold secProgression; split <;> rfl

@[simp] lemma secSessionPlan_checkpoints (c kl : Str) (p : ParsedPlan) :
    (secSessionPlan c kl p).checkpoints = p.checkpoints := by
  unfold secSessionPlan; split <;> rfl

@[simp] lemma secMentalCues_checkpoints (c kl : Str) (p : ParsedPlan) :
    (secMentalCues c kl p).checkpoints = p.checkpoints := by
  unfold secMentalCues; split <;> rfl

@[simp] lemma secTraps_checkpoints (c kl : Str) (p : ParsedPlan) :
    (secTraps c kl p).checkpoints = p.checkpoints := by
  unfold secTraps; split <;> rfl

lemma secCheckpoints_checkpoints (c kl : Str) (p : ParsedPlan) :
    (secCheckpoints c kl p).checkpoints =
      if containsSub kl pCheckpoint || containsSub kl pProgressWord
      then bulletLines c else p.checkpoints := by
  unfold secCheckpoints; split <;> rfl

@[simp] lemma secBigPicture_weekPlan (c kl : Str) (p : ParsedPlan) :
    (secBigPicture c kl p).weekPlan = p.weekPlan := by
  unfold secBigPicture; split <;> rfl

@[simp] lemma secImmediateFocus_weekPlan (c kl : Str) (p : ParsedPlan) :
    (secImmediateFocus c kl p).weekPlan = p.weekPlan := by
  unfold secImmediateFocus; split <;> rfl

@[simp] lemma secStrengths_weekPlan (c kl : Str) (p : ParsedPlan) :
    (secStrengths c kl p).weekPlan = p.weekPlan := by
  unfold secStrengths; split <;> rfl

@[simp] lemma secDrills_weekPlan (c kl : Str) (p : ParsedPlan) :
    (secDrills c kl p).weekPlan = p.weekPlan := by
  unfold secDrills; split <;> rfl

@[simp] lemma secDailyPlan_weekPlan (c kl : Str) (p : ParsedPlan) :
    (secDailyPlan c kl p).weekPlan = p.weekPlan := by
  unfold secDailyPlan; split <;> rfl

@[simp] lemma secWeeklySchedule_weekPlan (c kl : Str) (p : ParsedPlan) :
    (secWeeklySchedule c kl p).weekPlan = p.weekPlan := by
  unfold secWeeklySchedule; split <;> rfl

@[simp] lemma secProgression_weekPlan (c kl : Str) (p : ParsedPlan) :
    (secProgression c kl p).weekPlan = p.weekPlan := by
  unfold secProgression; split <;> rfl

@[simp] lemma secSessionPlan_weekPlan (c kl : Str) (p : ParsedPlan) :
    (secSessionPlan c kl p).weekPlan = p.weekPlan := by
  unfold secSessionPlan; split <;> rfl

@[simp] lemma secCheckpoints_weekPlan (c kl : Str) (p : ParsedPlan) :
    (secCheckpoints c kl p).weekPlan = p.weekPlan := by
  unfold secCheckpoints; split <;> rfl

@[simp] lemma secMentalCues_weekPlan (c kl : Str) (p : ParsedPlan) :
    (secMentalCues c kl p).weekPlan = p.weekPlan := by
  unfold secMentalCues; split <;> rfl

@[simp] lemma secTraps_weekPlan (c kl : Str) (p : ParsedPlan) :
    (secTraps c kl p).weekPlan = p.weekPlan := by
  unfold secTraps; split <;> rfl

lemma secWeekPlan_weekPlan (c kl : Str) (p : ParsedPlan) :
    (secWeekPlan c kl p).weekPlan =
      if containsSub kl pGamePlan || containsSub kl pWeekPlan || containsSub kl pPriorities
      then weekPlanOf c else p.weekPlan := by
  unfold secWeekPlan; split <;> rfl

lemma applySection_title (p : ParsedPlan) (kv : Str × Str) :
    (applySection p kv).title = p.title := by
  simp [applySection]

lemma applySection_raw (p : ParsedPlan) (kv : Str × Str) :
    (applySection p kv).rawSections = p.rawSections := by
  simp [applySection]

lemma applySection_checkpoints (p : ParsedPlan) (kv : Str × Str) :
    (applySection p kv).checkpoints =
      if containsSub (toLowerStr kv.1) pCheckpoint || containsSub (toLowerStr kv.1) pProgressWord
      then bulletLines kv.2 else p.checkpoints := by
  simp [applySection, secCheckpoints_checkpoints]

lemma applySection_weekPlan (p : ParsedPlan) (kv : Str × Str) :
    (applySection p kv).weekPlan =
      if containsSub (toLowerStr kv.1) pGamePlan || containsSub (toLowerStr kv.1) pWeekPlan
          || containsSub (toLowerStr kv.1) pPriorities
      then weekPlanOf kv.2 else p.weekPlan := by
  simp [applySection, secWeekPlan_weekPlan]

lemma foldl_applySection_title (ps : List (Str × Str)) :
    ∀ p : ParsedPlan, (ps.foldl applySection p).title = p.title := by
  induction ps with
  | nil => intro p; rfl
  | cons kv ps ih => intro p; rw [List.foldl_cons, ih, applySection_title]

lemma foldl_applySection_raw (ps : List (Str × Str)) :
    ∀ p : ParsedPlan, (ps.foldl applySection p).rawSections = p.rawSections := by
  induction ps with
  | nil => intro p; rfl
  | cons kv ps ih => intro p; rw [List.foldl_cons, ih, applySection_raw]

lemma parseLines_title (ls : List Str) : (parseLines ls).title = (scanDoc ls).title := by
  unfold parseLines; rw [foldl_applySection_title]

lemma parseLines_raw (ls : List Str) : (parseLines ls).rawSections = (scanDoc ls).raw := by
  unfold parseLines; rw [foldl_applySection_raw]

/-! ### Lemmas on the line scan -/

/-- Guard of the title branch of the scan. -/
def isTitleLine (l : Str) : Bool := "# ".data.isPrefixOf l

/-- The text a title line contributes. -/
def titleText (l : Str) : Str := trim (replaceOnce "# ".data [] l)

@[simp] lemma scanStep_title (s : ScanState) (l : Str) :
    (scanStep s l).title = if isTitleLine l then titleText l else s.title := by
  unfold scanStep isTitleLine titleText; split_ifs <;> rfl

@[simp] lemma scanFlush_title (s : ScanState) : (scanFlush s).title = s.title := by
  unfold scanFlush; split <;> rfl

lemma scanFlush_raw (s : ScanState) :
    (scanFlush s).raw =
      if s.current.isEmpty then s.raw else upsert s.raw s.current (joinLines s.content) := by
  unfold scanFlush; split <;> rfl

lemma scan_title_foldl (ls : List Str) :
    ∀ s : ScanState, (ls.foldl scanStep s).title
      = ls.foldl (fun t l => if isTitleLine l then titleText l else t) s.title := by
  induction ls with
  | nil => intro s; rfl
  | cons l ls ih => intro s; rw [List.foldl_cons, List.foldl_cons, ih, scanStep_title]

lemma scanStep_titleLine (s : ScanState) (l : Str) (h : isTitleLine l = true) :
    scanStep s l = { s with title := titleText l } := by
  unfold isTitleLine at h; unfold scanStep titleText; rw [if_pos h]

lemma scanStep_agree (s₁ s₂ : ScanState) (l : Str) (h : isTitleLine l = false)
    (hc : s₁.current = s₂.current) (hcont : s₁.content = s₂.content)
    (hraw : s₁.raw = s₂.raw) :
    (scanStep s₁ l).current = (scanStep s₂ l).current ∧
      (scanStep s₁ l).content = (scanStep s₂ l).content ∧
      (scanStep s₁ l).raw = (scanStep s₂ l).raw := by
  unfold isTitleLine at h
  have hn : ¬("# ".data.isPrefixOf l = true) := by simp [h]
  unfold scanStep
  rw [if_neg hn, if_neg hn, hc, hcont, hraw]
  refine ⟨?_, ?_, ?_⟩ <;> split_ifs <;> rfl

lemma scan_agree (ls : List Str) :
    ∀ s₁ s₂ : ScanState,
      s₁.current = s₂.current → s₁.content = s₂.content → s₁.raw = s₂.raw →
      (ls.foldl scanStep s₁).current
          = ((ls.filter (fun l => !isTitleLine l)).foldl scanStep s₂).current ∧
        (ls.foldl scanStep s₁).content
          = ((ls.filter (fun l => !isTitleLine l)).foldl scanStep s₂).content ∧
        (ls.foldl scanStep s₁).raw
          = ((ls.filter (fun l => !isTitleLine l)).foldl scanStep s₂).raw := by
  induction ls with
  | nil => intro s₁ s₂ hc hcont hraw; exact ⟨hc, hcont, hraw⟩
  | cons l ls ih =>
    intro s₁ s₂ hc hcont hraw
    by_cases ht : isTitleLine l = true
    · have hfilter : (l :: ls).filter (fun l => !isTitleLine l)
          = ls.filter (fun l => !isTitleLine l) := by
        simp [List.filter_cons, ht]
      rw [hfilter, List.foldl_cons, scanStep_titleLine s₁ l ht]
      exact ih _ s₂ hc hcont hraw
    · have ht' : isTitleLine l = false := by
        cases hv : isTitleLine l with
        | false => rfl
        | true => exact absurd hv ht
      have hfilter : (l :: ls).filter (fun l => !isTitleLine l)
          = l :: ls.filter (fun l => !isTitleLine l) := by
        simp [List.filter_cons, ht']
      rw [hfilter, List.foldl_cons, List.foldl_cons]
      obtain ⟨a1, a2, a3⟩ := scanStep_agree s₁ s₂ l ht' hc hcont hraw
      exact ih _ _ a1 a2 a3

lemma scanDoc_raw_erase (ls : List Str) :
    (scanDoc ls).raw = (scanDoc (ls.filter (fun l => !isTitleLine l))).raw := by
  obtain ⟨h1, h2, h3⟩ := scan_agree ls {} {} rfl rfl rfl
  unfold scanDoc
  rw [scanFlush_raw, scanFlush_raw, h1, h2, h3]

/-! ### Claim C1 -/

/-- Claim C1, counterexample: on the empty string the parser returns the
absent value, not a default-initialised plan. -/
theorem C1_counterexample : parseTrainingPlan "".data = none := by decide

/-- Claim C1 (amended): for every nonempty input string the parser
terminates and returns a structurally complete plan (a total function into
`ParsedPlan`, all fields present with empty defaults); the empty string is
the single input mapped to the absent value instead. -/
theorem C1_theorem : ∀ t : Str, t ≠ [] → ∃ p, parseTrainingPlan t = some p := by
  intro t ht
  cases t with
  | nil => exact absurd rfl ht
  | cons c cs => exact ⟨parseLines (splitLines (c :: cs)), rfl⟩

/-- Witness for C1 at a concrete nonempty input. -/
theorem C1_witness : ∃ p, parseTrainingPlan "# Plan".data = some p :=
  C1_theorem ("# Plan".data) (by decide)

/-! ### Claim C2 -/

/-- Claim C2, counterexample: with two title lines the parser keeps the
second one — the first title line does not win. -/
theorem C2_counterexample :
    (parseTrainingPlan "# A\n# B".data).map ParsedPlan.title = some "B".data ∧
      (parseTrainingPlan "# A\n# B".data).map ParsedPlan.title ≠ some "A".data := by
  constructor
  · decide
  · decide

/-- Claim C2 (amended): the returned title is the text of the last
one-hash title line (later title lines overwrite earlier ones rather than
being ignored), and title lines do not start a new section: removing every
title line from the document leaves the raw section mapping unchanged. -/
theorem C2_theorem :
    (∀ ls : List Str, (parseLines ls).title
        = ls.foldl (fun t l => if isTitleLine l then titleText l else t) []) ∧
      ∀ ls : List Str, (parseLines ls).rawSections
        = (parseLines (ls.filter (fun l => !isTitleLine l))).rawSections := by
  constructor
  · intro ls
    rw [parseLines_title]
    unfold scanDoc
    rw [scanFlush_title, scan_title_foldl]
  · intro ls
    rw [parseLines_raw, parseLines_raw, scanDoc_raw_erase]

/-! ### Claim C10 -/

/-- Claim C10: the score-to-color mapping is total and partitions its
input: absent scores map to the unknown class, scores of at least 70 to the
good class, scores of at least 50 and below 70 to the medium class, and all
other scores to the poor class. -/
theorem C10_theorem :
    getScoreColor none = "score-unknown".data ∧
      ∀ s : ℚ,
        getScoreColor (some s) ≠ "score-unknown".data ∧
          (70 ≤ s → getScoreColor (some s) = "score-good".data) ∧
          (50 ≤ s → s < 70 → getScoreColor (some s) = "score-medium".data) ∧
          (s < 50 → getScoreColor (some s) = "score-poor".data) := by
  refine ⟨rfl, fun s => ?_⟩
  simp only [getScoreColor]
  split_ifs with h1 h2
  · exact ⟨by decide, fun _ => rfl,
      fun _ h70 => absurd h1 (not_le.mpr h70),
      fun h50 => absurd (lt_of_le_of_lt h1 h50) (by norm_num)⟩
  · exact ⟨by decide, fun h => absurd h h1,
      fun _ _ => rfl,
      fun h50 => absurd h2 (not_le.mpr h50)⟩
  · exact ⟨by decide,
      fun h => absurd (le_trans (by norm_num) h) h1,
      fun h _ => absurd h h2,
      fun _ => rfl⟩

/-- Witness for C10 at concrete scores in each band. -/
theorem C10_witness :
    getScoreColor (some 85) = "score-good".data ∧
      getScoreColor (some 60) = "score-medium".data ∧
      getScoreColor (some 10) = "score-poor".data ∧
      getScoreColor none = "score-unknown".data :=
  ⟨(C10_theorem.2 85).2.1 (by norm_num),
    (C10_theorem.2 60).2.2.1 (by norm_num) (by norm_num),
    (C10_theorem.2 10).2.2.2 (by norm_num),
    C10_theorem.1⟩

/-! ### Splitting and joining lines -/

lemma splitOnC_ne_nil (sep : Char) (s : Str) : splitOnC sep s ≠ [] := by
  cases s with
  | nil => simp [splitOnC]
  | cons c cs =>
    unfold splitOnC
    cases h : splitOnC sep cs with
    | nil => simp
    | cons l ls => simp only [h]; split <;> simp

lemma splitOnC_no_sep (sep : Char) (s : Str) (h : sep ∉ s) : splitOnC sep s = [s] := by
  induction s with
  | nil => rfl
  | cons c cs ih =>
    have hc : c ≠ sep := fun e => h (e ▸ List.mem_cons_self c cs)
    have hcs : sep ∉ cs := fun m => h (List.mem_cons_of_mem c m)
    unfold splitOnC
    rw [ih hcs]
    simp [hc]

lemma splitOnC_cons (sep c : Char) (cs : Str) :
    splitOnC sep (c :: cs) =
      match splitOnC sep cs with
      | [] => [[]]
      | l :: ls => if c = sep then [] :: l :: ls else (c :: l) :: ls := rfl

lemma splitOnC_append_cons (sep : Char) (l t : Str) (hl : sep ∉ l) :
    splitOnC sep (l ++ sep :: t) = l :: splitOnC sep t := by
  induction l with
  | nil =>
    simp only [List.nil_append]
    rw [splitOnC_cons]
    cases h : splitOnC sep t with
    | nil => exact absurd h (splitOnC_ne_nil sep t)
    | cons a as => simp
  | cons c cs ih =>
    have hc : c ≠ sep := fun e => hl (e ▸ List.mem_cons_self c cs)
    have hcs : sep ∉ cs := fun m => hl (List.mem_cons_of_mem c m)
    simp only [List.cons_append]
    rw [splitOnC_cons, ih hcs]
    simp [hc]

lemma joinLines_single (x : Str) : joinLines [x] = x := by
  simp [joinLines, List.intercalate]

lemma joinLines_cons_cons (x y : Str) (rest : List Str) :
    joinLines (x :: y :: rest) = x ++ '\n' :: joinLines (y :: rest) := by
  simp [joinLines, List.intercalate]

lemma splitLines_joinLines (ls : List Str) (hnl : ∀ l ∈ ls, ('\n' : Char) ∉ l)
    (hne : ls ≠ []) : splitLines (joinLines ls) = ls := by
  induction ls with
  | nil => exact absurd rfl hne
  | cons x rest ih =>
    cases rest with
    | nil =>
      rw [joinLines_single]
      exact splitOnC_no_sep _ x (hnl x (by simp))
    | cons y rest2 =>
      rw [joinLines_cons_cons]
      unfold splitLines
      rw [splitOnC_append_cons _ x _ (hnl x (by simp))]
      have hrec : splitOnC '\n' (joinLines (y :: rest2)) = y :: rest2 :=
        ih (fun l hm => hnl l (List.mem_cons_of_mem x hm)) (by simp)
      rw [hrec]

/-- The per-line form of the shared bullet extraction (used to state what
the extraction does to a section body given as its list of lines). -/
def bulletOfLines (ls : List Str) : List Str :=
  (ls.filter (fun l => "-".data.isPrefixOf (trim l))).map (fun l => trim (stripDashWS l))

lemma bulletLines_joinLines (ls : List Str) (h : ∀ l ∈ ls, ('\n' : Char) ∉ l) :
    bulletLines (joinLines ls) = bulletOfLines ls := by
  cases ls with
  | nil => decide
  | cons x rest =>
    unfold bulletLines bulletOfLines
    rw [splitLines_joinLines (x :: rest) h (by simp)]

/-! ### Scanning a section body -/

lemma scanStep_plain (s : ScanState) (l : Str)
    (h1 : "# ".data.isPrefixOf l = false) (h2 : "## ".data.isPrefixOf l = false) :
    scanStep s l = { s with content := s.content ++ [ l ] } := by
  have hn1 : ¬("# ".data.isPrefixOf l = true) := by simp [h1]
  have hn2 : ¬("## ".data.isPrefixOf l = true) := by simp [h2]
  unfold scanStep
  rw [if_neg hn1, if_neg hn2]
  split <;> rfl

lemma scan_body (body : List Str) :
    ∀ s : ScanState,
      (∀ l ∈ body, "# ".data.isPrefixOf l = false ∧ "## ".data.isPrefixOf l = false) →
      body.foldl scanStep s = { s with content := s.content ++ body } := by
  induction body with
  | nil => intro s _; rw [List.foldl_nil, List.append_nil]
  | cons l rest ih =>
    intro s h
    rw [List.foldl_cons, scanStep_plain s l (h l (by simp)).1 (h l (by simp)).2,
      ih _ (fun x hx => h x (by simp [hx]))]
    simp

lemma scanStep_heading (s : ScanState) (l : Str)
    (h1 : "# ".data.isPrefixOf l = false) (h2 : "## ".data.isPrefixOf l = true) :
    scanStep s l = { s with
      raw := if s.current.isEmpty then s.raw else upsert s.raw s.current (joinLines s.content)
      current := trim (replaceOnce "## ".data [] l)
      content := [] } := by
  have hn1 : ¬("# ".data.isPrefixOf l = true) := by simp [h1]
  unfold scanStep
  rw [if_neg hn1, if_pos h2]

lemma upsert_head_eq (k v v' : Str) (rest : List (Str × Str)) :
    upsert ((k, v) :: rest) k v' = (k, v') :: rest := by
  unfold upsert
  rw [if_pos rfl]

/-! ### Claim C3 -/

/-- A document made of two sections with the same heading line, given as
the join of its lines. -/
def twoSectionDoc (h : Str) (body1 body2 : List Str) : Str :=
  joinLines ((h :: body1) ++ h :: body2)

/-- Claim C3, counterexample: with two sections both headed by the
checkpoints heading, only the bullets of the second section appear: typed
list fields are overwritten, not accumulated across repeated headings. -/
theorem C3_counterexample :
    (parseTrainingPlan "## Checkpoints\n- a\n## Checkpoints\n- b".data).map
        ParsedPlan.checkpoints = some [ "b".data ] ∧
      (parseTrainingPlan "## Checkpoints\n- a\n## Checkpoints\n- b".data).map
        ParsedPlan.checkpoints ≠ some [ "a".data, "b".data ] := by
  constructor
  · decide
  · decide

/-- Claim C3 (amended): for a document with two sections under the same
checkpoints heading, the raw mapping keeps only the later body (last
occurrence overwrites), and since typed extraction runs over the raw
mapping, the checkpoints list holds the bullets of the second section only
— list fields are overwritten, not accumulated, across repeated headings. -/
theorem C3_theorem (body1 body2 : List Str)
    (hb1 : ∀ l ∈ body1, "# ".data.isPrefixOf l = false ∧ "## ".data.isPrefixOf l = false
      ∧ ('\n' : Char) ∉ l)
    (hb2 : ∀ l ∈ body2, "# ".data.isPrefixOf l = false ∧ "## ".data.isPrefixOf l = false
      ∧ ('\n' : Char) ∉ l) :
    (parseTrainingPlan (twoSectionDoc "## Checkpoints".data body1 body2)).map
        ParsedPlan.checkpoints = some (bulletOfLines body2) ∧
      (parseTrainingPlan (twoSectionDoc "## Checkpoints".data body1 body2)).map
        ParsedPlan.rawSections = some [ ("Checkpoints".data, joinLines body2) ] := by
  have hnl : ∀ l ∈ ("## Checkpoints".data :: body1) ++ "## Checkpoints".data :: body2,
      ('\n' : Char) ∉ l := by
    intro l hm
    rcases List.mem_append.mp hm with h | h
    · rcases List.mem_cons.mp h with rfl | h
      · decide
      · exact (hb1 l h).2.2
    · rcases List.mem_cons.mp h with rfl | h
      · decide
      · exact (hb2 l h).2.2
  have hsplit : splitLines (twoSectionDoc "## Checkpoints".data body1 body2)
      = ("## Checkpoints".data :: body1) ++ "## Checkpoints".data :: body2 := by
    unfold twoSectionDoc
    exact splitLines_joinLines _ hnl (by simp)
  have hne : twoSectionDoc "## Checkpoints".data body1 body2 ≠ [] := by
    intro e
    rw [e] at hsplit
    have h2 : ([[]] : List Str)
        = "## Checkpoints".data :: (body1 ++ "## Checkpoints".data :: body2) := by
      simp only [splitLines, splitOnC, List.cons_append] at hsplit
      exact hsplit
    have h3 : ([] : Str) = "## Checkpoints".data := by injection h2
    exact absurd h3 (by decide)
  have hIE : (twoSectionDoc "## Checkpoints".data body1 body2).isEmpty = false := by
    cases hd : twoSectionDoc "## Checkpoints".data body1 body2 with
    | nil => exact absurd hd hne
    | cons a b => rfl
  have hparse : parseTrainingPlan (twoSectionDoc "## Checkpoints".data body1 body2)
      = some (parseLines (("## Checkpoints".data :: body1) ++ "## Checkpoints".data :: body2)) := by
    unfold parseTrainingPlan
    rw [if_neg (by simp [hIE]), hsplit]
  have hC : trim (replaceOnce "## ".data [] ("## Checkpoints".data)) = "Checkpoints".data := by
    decide
  have e1 : scanStep ({} : ScanState) ("## Checkpoints".data)
      = { current := "Checkpoints".data } := by decide
  have e2 : body1.foldl scanStep ({ current := "Checkpoints".data } : ScanState)
      = { current := "Checkpoints".data, content := body1 } := by
    rw [scan_body body1 _ (fun l hm => ⟨(hb1 l hm).1, (hb1 l hm).2.1⟩)]
    simp
  have e3 : scanStep ({ current := "Checkpoints".data, content := body1 } : ScanState)
      ("## Checkpoints".data)
      = { current := "Checkpoints".data,
          raw := [ ("Checkpoints".data, joinLines body1) ] } := by
    rw [scanStep_heading _ _ (by decide) (by decide)]
    simp [hC, upsert]
  have e4 : body2.foldl scanStep
      ({ current := "Checkpoints".data,
         raw := [ ("Checkpoints".data, joinLines body1) ] } : ScanState)
      = { current := "Checkpoints".data, content := body2,
          raw := [ ("Checkpoints".data, joinLines body1) ] } := by
    rw [scan_body body2 _ (fun l hm => ⟨(hb2 l hm).1, (hb2 l hm).2.1⟩)]
    simp
  have hdoc : scanDoc (("## Checkpoints".data :: body1) ++ "## Checkpoints".data :: body2)
      = { title := [], current := "Checkpoints".data, content := body2,
          raw := [ ("Checkpoints".data, joinLines body2) ] } := by
    unfold scanDoc
    rw [List.foldl_append, List.foldl_cons, List.foldl_cons, e1, e2, e3, e4]
    unfold scanFlush
    simp [upsert_head_eq]
  have hdraw : (scanDoc (("## Checkpoints".data :: body1) ++ "## Checkpoints".data :: body2)).raw
      = [ ("Checkpoints".data, joinLines body2) ] := by rw [hdoc]
  have hdtitle : (scanDoc (("## Checkpoints".data :: body1)
      ++ "## Checkpoints".data :: body2)).title = [] := by rw [hdoc]
  have hpl : parseLines (("## Checkpoints".data :: body1) ++ "## Checkpoints".data :: body2)
      = applySection { title := [], rawSections := [ ("Checkpoints".data, joinLines body2) ] }
          ("Checkpoints".data, joinLines body2) := by
    simp only [parseLines, hdraw, hdtitle, List.foldl_cons, List.foldl_nil]
  have hcheck : (parseLines (("## Checkpoints".data :: body1)
      ++ "## Checkpoints".data :: body2)).checkpoints = bulletOfLines body2 := by
    rw [hpl, applySection_checkpoints]
    dsimp only
    rw [if_pos (by decide)]
    exact bulletLines_joinLines body2 (fun l hm => (hb2 l hm).2.2)
  have hraws : (parseLines (("## Checkpoints".data :: body1)
      ++ "## Checkpoints".data :: body2)).rawSections
      = [ ("Checkpoints".data, joinLines body2) ] := by
    rw [parseLines_raw, hdraw]
  constructor
  · rw [hparse]
    exact congrArg some hcheck
  · rw [hparse]
    exact congrArg some hraws

/-- Witness for C3 at concrete one-bullet section bodies. -/
theorem C3_witness :
    (parseTrainingPlan (twoSectionDoc "## Checkpoints".data [ "- a".data ] [ "- b".data ])).map
        ParsedPlan.checkpoints = some (bulletOfLines [ "- b".data ]) ∧
      (parseTrainingPlan (twoSectionDoc "## Checkpoints".data [ "- a".data ] [ "- b".data ])).map
        ParsedPlan.rawSections = some [ ("Checkpoints".data, joinLines [ "- b".data ]) ] :=
  C3_theorem [ "- a".data ] [ "- b".data ] (by decide) (by decide)

/-! ### Claim C5 -/

/-- Claim C5, counterexample: a bullet line indented by leading whitespace
is collected, but its dash is not stripped — the anchored dash removal only
fires when the dash is the first character of the line. -/
theorem C5_counterexample :
    (parseTrainingPlan "## Checkpoints\n  - a".data).map ParsedPlan.checkpoints
        = some [ "- a".data ] ∧
      (parseTrainingPlan "## Checkpoints\n  - a".data).map ParsedPlan.checkpoints
        ≠ some [ "a".data ] := by
  constructor
  · decide
  · decide

/-- Claim C5 (amended): a checkpoints-only document with three unindented
bullets yields exactly those three items and every other typed field at its
default; in general the extraction keeps the lines whose trimmed content
starts with a dash and maps each through the anchored dash strip plus trim,
so a line whose dash is not at the very start of the line keeps its dash. -/
theorem C5_theorem :
    parseTrainingPlan "## Checkpoints\n- one\n- two\n- three".data
        = some { checkpoints := [ "one".data, "two".data, "three".data ],
                 rawSections :=
                  [ ("Checkpoints".data, "- one\n- two\n- three".data) ] } ∧
      (∀ ls : List Str, (∀ l ∈ ls, ('\n' : Char) ∉ l) →
        bulletLines (joinLines ls) = bulletOfLines ls) ∧
      ∀ l : Str, "-".data.isPrefixOf l = false → trim (stripDashWS l) = trim l := by
  refine ⟨by decide, bulletLines_joinLines, ?_⟩
  intro l h
  cases l with
  | nil => rfl
  | cons c cs =>
    have hc : c ≠ '-' := by
      intro e
      subst e
      simp [List.isPrefixOf] at h
    have hs : stripDashWS (c :: cs) = c :: cs := by
      unfold stripDashWS
      split
      · simp_all
      · rfl
    rw [hs]

/-- Witness for C5 at a concrete line list and a concrete indented line. -/
theorem C5_witness :
    bulletLines (joinLines [ "- x".data ]) = bulletOfLines [ "- x".data ] ∧
      trim (stripDashWS "  - y".data) = trim "  - y".data :=
  ⟨C5_theorem.2.1 [ "- x".data ] (by decide),
    C5_theorem.2.2 ("  - y".data) (by decide)⟩

/-! ### Claim C6 -/

/-- A priorities section with two priority sub-blocks, each holding a drill
line and a current-to-target line. -/
def docC6 : Str :=
  ("## Priorities\n### Priority 1: Edge Angle\nDrill: Pivot Slips\nCurrent: 45 → 60\n"
    ++ "### Priority 2: Balance\nDrill: Javelin Turns\nCurrent: 45 → 60").data

/-- Claim C6: a section matching the week-plan predicate with two priority
blocks, each with a drill line and a `Current: 45 → 60` line, yields a
week plan of length two in source order with current 45, target 60 and the
drill set per block; and in general every returned priority record has a
name or a drill (blocks with neither are discarded). -/
theorem C6_theorem :
    (parseTrainingPlan docC6).map
        (fun p => p.weekPlan.map (fun q => (q.current, q.target, q.drill)))
        = some [ ("45".data, "60".data, "Pivot Slips".data),
                 ("45".data, "60".data, "Javelin Turns".data) ] ∧
      ∀ content : Str,
        (weekPlanOf content).all (fun q => !q.name.isEmpty || !q.drill.isEmpty) = true := by
  constructor
  · decide
  · intro content
    unfold weekPlanOf
    rw [List.all_eq_true]
    intro q hq
    exact (List.mem_filter.mp hq).2

/-! ### Claim C7 -/

/-- A daily-plan section whose body has a nonblank preamble before the
first bold run header. -/
def docC7pre : Str :=
  "## Daily Plan\nIntro\n**Run 1: Warmup**\n- a\n**Run 2: Sprint**\n- b".data

/-- The same daily-plan section whose body begins immediately with the
first bold run header. -/
def docC7hdr : Str :=
  "## Daily Plan\n**Run 1: Warmup**\n- a\n**Run 2: Sprint**\n- b".data

/-- Claim C7, counterexample: when the section body begins immediately with
the first run header, the first entry receives the bullets that follow the
second header and the last entry receives no bullets — the claimed
association of each header with its own following block fails. -/
theorem C7_counterexample :
    (parseTrainingPlan docC7hdr).map
        (fun p => p.dailyPlan.map (fun r => (r.runs, r.phase, r.details)))
        = some [ ("1".data, "Warmup".data, [ "b".data ]),
                 ("2".data, "Sprint".data, ([] : List Str)) ] ∧
      (parseTrainingPlan docC7hdr).map
        (fun p => p.dailyPlan.map (fun r => (r.runs, r.phase, r.details)))
        ≠ some [ ("1".data, "Warmup".data, [ "a".data ]),
                 ("2".data, "Sprint".data, [ "b".data ]) ] := by
  constructor
  · decide
  · decide

/-- Claim C7 (amended): each bold run header yields one entry with the
captured run number and the phase after the first colon; the entry details
come from the chunk at position one past the entry index in the blank-
filtered split, which is the text following that header exactly when a
nonblank preamble precedes the first header — when the body starts with the
first header the details shift by one block; the number of entries always
equals the number of headers. -/
theorem C7_theorem :
    (parseTrainingPlan docC7pre).map
        (fun p => p.dailyPlan.map (fun r => (r.runs, r.phase, r.details)))
        = some [ ("1".data, "Warmup".data, [ "a".data ]),
                 ("2".data, "Sprint".data, [ "b".data ]) ] ∧
      (parseTrainingPlan docC7hdr).map
        (fun p => p.dailyPlan.map (fun r => (r.runs, r.phase, r.details)))
        = some [ ("1".data, "Warmup".data, [ "b".data ]),
                 ("2".data, "Sprint".data, ([] : List Str)) ] ∧
      ∀ content : Str, (dailyPlanOf content).length = (allRunHeaders content).length := by
  refine ⟨by decide, by decide, fun content => ?_⟩
  unfold dailyPlanOf
  rw [List.length_map, List.enum_length]

/-! ### Claim C9 -/

/-- A single section whose heading satisfies both the checkpoints and the
priorities predicates. -/
def docC9 : Str :=
  "## Progress and Priorities\n- milestone one\n### Priority 1: Edge\nDrill: Pivot".data

/-- Claim C9: a single section whose heading satisfies two classification
predicates populates both corresponding typed fields from that one body:
concretely both checkpoints and the week plan are filled, and in general
applying the extraction for such a heading sets the checkpoints to the
bullets of the body and the week plan to the priorities of the body,
independently. -/
theorem C9_theorem :
    (parseTrainingPlan docC9).map ParsedPlan.checkpoints
        = some [ "milestone one".data ] ∧
      (parseTrainingPlan docC9).map (fun p => p.weekPlan.map Priority.drill)
        = some [ ([] : Str), "Pivot".data ] ∧
      ∀ (content : Str) (p : ParsedPlan),
        (applySection p ("Progress and Priorities".data, content)).checkpoints
            = bulletLines content ∧
          (applySection p ("Progress and Priorities".data, content)).weekPlan
            = weekPlanOf content := by
  refine ⟨by decide, by decide, fun content p => ⟨?_, ?_⟩⟩
  · rw [applySection_checkpoints]
    dsimp only
    rw [if_pos (by decide)]
  · rw [applySection_weekPlan]
    dsimp only
    rw [if_pos (by decide)]

/-! ### Claim C8 -/

lemma dayStep_dayNum (f : Option Str) (d : DayPlan) (l : Str) :
    (dayStep f d l).dayNum = d.dayNum := by
  simp only [dayStep, apply_ite DayPlan.dayNum, ite_self]

lemma foldl_dayStep_dayNum (f : Option Str) (L : List Str) :
    ∀ d : DayPlan, (L.foldl (dayStep f) d).dayNum = d.dayNum := by
  induction L with
  | nil => intro d; rfl
  | cons l rest ih => intro d; rw [List.foldl_cons, ih, dayStep_dayNum]

lemma mkDay_dayNum (idx : Nat) (block : Str) : (mkDay idx block).dayNum = idx + 1 := by
  unfold mkDay
  rw [foldl_dayStep_dayNum]

/-- A weekly-schedule section whose first produced day block is discarded
(neither name nor primary focus), so the returned day numbers are not
consecutive from one. -/
def docC8 : Str := "## Weekly Schedule\n### Day 1\n::\n### Day 2\nMonday: ok".data

/-- Claim C8, counterexample: the surviving entry keeps day number two (its
position among the produced blocks before discarding), so the returned day
numbers are not the consecutive sequence starting at one. -/
theorem C8_counterexample :
    (parseTrainingPlan docC8).map (fun p => p.weeklySchedule.map DayPlan.dayNum)
        = some [ 2 ] ∧
      (parseTrainingPlan docC8).map (fun p => p.weeklySchedule.map DayPlan.dayNum)
        ≠ some [ 1 ] := by
  constructor
  · decide
  · decide

/-- Claim C8 (amended): day numbers are assigned as the 1-based position
among the blank-filtered split blocks before the name-or-primary-focus
discard, so the returned day numbers are strictly increasing but need not
be consecutive from one when a block is discarded. -/
theorem C8_theorem :
    (parseTrainingPlan docC8).map (fun p => p.weeklySchedule.map DayPlan.dayNum)
        = some [ 2 ] ∧
      ∀ content : Str,
        ((weeklyScheduleOf content).map DayPlan.dayNum).Pairwise (· < ·) := by
  refine ⟨by decide, fun content => ?_⟩
  unfold weeklyScheduleOf
  have key : ∀ bs : List Str,
      (((bs.enum.map (fun ib => mkDay ib.1 ib.2)).filter
          (fun d => !d.name.isEmpty || !d.primaryFocus.isEmpty)).map DayPlan.dayNum).Pairwise
        (· < ·) := by
    intro bs
    have hsub : List.Sublist
        (((bs.enum.map (fun ib => mkDay ib.1 ib.2)).filter
          (fun d => !d.name.isEmpty || !d.primaryFocus.isEmpty)).map DayPlan.dayNum)
        ((bs.enum.map (fun ib => mkDay ib.1 ib.2)).map DayPlan.dayNum) :=
      (List.filter_sublist _).map DayPlan.dayNum
    have hmain : (((bs.enum.map (fun ib => mkDay ib.1 ib.2)).map DayPlan.dayNum)).Pairwise
        (· < ·) := by
      rw [List.map_map]
      have hfun : ∀ ib ∈ bs.enum,
          (DayPlan.dayNum ∘ fun ib => mkDay ib.1 ib.2) ib = ib.1 + 1 := by
        intro ib _
        exact mkDay_dayNum ib.1 ib.2
      rw [List.map_congr_left hfun]
      apply List.pairwise_map.mpr
      have henum : bs.enum.Pairwise (fun a b => a.1 < b.1) := by
        have h1 : (bs.enum.map Prod.fst).Pairwise (· < ·) := by
          rw [List.enum_map_fst]
          exact List.pairwise_lt_range _
        exact List.pairwise_map.mp h1
      exact henum.imp (fun h => Nat.succ_lt_succ h)
    exact hmain.sublist hsub
  exact key _

/-! ### Claim C4 -/

/-- The pending open section, if one exists, as a singleton list. -/
def pendingSection : Option Str → List Str → List (Str × Str)
  | none, _ => []
  | some h, cont => [ (h, joinLines cont) ]

/-- The Section decomposition of the data model (a second definition
following the words of the specification, for comparison with the raw
mapping the code builds): the list of (trimmed heading, body) pairs of
every Section introduced by a two-hash heading line, in document order,
title lines skipped, three-hash lines retained in the body, the text before
the first heading belonging to no Section. -/
def sectionsAux : List Str → Option Str → List Str → List (Str × Str)
  | [], cur, cont => pendingSection cur cont
  | l :: ls, cur, cont =>
    if isTitleLine l then sectionsAux ls cur cont
    else if "## ".data.isPrefixOf l then
      pendingSection cur cont
        ++ sectionsAux ls (some (trim (replaceOnce "## ".data [] l))) []
    else sectionsAux ls cur (cont ++ [ l ])

def specSections (ls : List Str) : List (Str × Str) := sectionsAux ls none []

/-- The scan state current heading corresponding to a decomposition state. -/
def curStr : Option Str → Str
  | none => []
  | some h => h

/-- Folding a list of sections into a JS object by repeated assignment. -/
def foldUpsert (m : List (Str × Str)) (ps : List (Str × Str)) : List (Str × Str) :=
  ps.foldl (fun acc kv => upsert acc kv.1 kv.2) m

lemma foldUpsert_append (m : List (Str × Str)) (a b : List (Str × Str)) :
    foldUpsert m (a ++ b) = foldUpsert (foldUpsert m a) b := by
  unfold foldUpsert
  rw [List.foldl_append]

lemma foldUpsert_cons (m : List (Str × Str)) (q : Str × Str) (rest : List (Str × Str)) :
    foldUpsert m (q :: rest) = foldUpsert (upsert m q.1 q.2) rest := rfl

lemma foldUpsert_pending (m : List (Str × Str)) (cur : Option Str) (cont : List Str) :
    foldUpsert m ((pendingSection cur cont).filter (fun kv => !kv.1.isEmpty))
      = if (curStr cur).isEmpty then m
        else upsert m (curStr cur) (joinLines cont) := by
  cases cur with
  | none => simp [curStr, pendingSection, foldUpsert]
  | some hd =>
    simp only [curStr, pendingSection]
    by_cases hh : hd.isEmpty
    · rw [if_pos hh]
      simp [List.filter, hh, foldUpsert]
    · rw [if_neg hh]
      simp [List.filter, hh, foldUpsert]

lemma scan_raw_spec (ls : List Str) :
    ∀ (s : ScanState) (cur : Option Str), s.current = curStr cur →
      (scanFlush (ls.foldl scanStep s)).raw
        = foldUpsert s.raw ((sectionsAux ls cur s.content).filter (fun kv => !kv.1.isEmpty)) := by
  induction ls with
  | nil =>
    intro s cur h
    rw [List.foldl_nil, scanFlush_raw, h]
    exact (foldUpsert_pending s.raw cur s.content).symm
  | cons l ls ih =>
    intro s cur h
    rw [List.foldl_cons]
    by_cases ht : isTitleLine l = true
    · rw [scanStep_titleLine s l ht]
      rw [ih ⟨titleText l, s.current, s.content, s.raw⟩ cur h]
      have hsect : sectionsAux (l :: ls) cur s.content = sectionsAux ls cur s.content := by
        rw [sectionsAux.eq_2, if_pos ht]
      rw [hsect]
    · have ht2 : isTitleLine l = false := by
        cases hv : isTitleLine l with
        | false => rfl
        | true => exact absurd hv ht
      have ht3 : "# ".data.isPrefixOf l = false := ht2
      by_cases hh : "## ".data.isPrefixOf l = true
      · rw [scanStep_heading s l ht3 hh]
        rw [ih ⟨s.title,
          trim (replaceOnce "## ".data [] l), [],
          if s.current.isEmpty then s.raw else upsert s.raw s.current (joinLines s.content)⟩
          (some (trim (replaceOnce "## ".data [] l))) rfl]
        have hsect : sectionsAux (l :: ls) cur s.content
            = pendingSection cur s.content
              ++ sectionsAux ls (some (trim (replaceOnce "## ".data [] l))) [] := by
          rw [sectionsAux.eq_2, if_neg (by simp [ht2]), if_pos hh]
        rw [hsect, List.filter_append, foldUpsert_append]
        have hpend : foldUpsert s.raw
            ((pendingSection cur s.content).filter (fun kv => !kv.1.isEmpty))
            = if s.current.isEmpty then s.raw
              else upsert s.raw s.current (joinLines s.content) := by
          rw [foldUpsert_pending, h]
        rw [hpend]
      · have hh2 : "## ".data.isPrefixOf l = false := by
          cases hv : "## ".data.isPrefixOf l with
          | false => rfl
          | true => exact absurd hv hh
        rw [scanStep_plain s l ht3 hh2]
        rw [ih ⟨s.title, s.current, s.content ++ [ l ], s.raw⟩ cur h]
        have hsect : sectionsAux (l :: ls) cur s.content
            = sectionsAux ls cur (s.content ++ [ l ]) := by
          rw [sectionsAux.eq_2, if_neg (by simp [ht2]), if_neg (by simp [hh2])]
        rw [hsect]

lemma scanDoc_raw_spec (ls : List Str) :
    (scanDoc ls).raw = foldUpsert [] ((specSections ls).filter (fun kv => !kv.1.isEmpty)) :=
  scan_raw_spec ls {} none rfl

lemma lookupRaw_upsert_self (m : List (Str × Str)) (k v : Str) :
    lookupRaw k (upsert m k v) = some v := by
  induction m with
  | nil => simp [upsert, lookupRaw]
  | cons kv rest ih =>
    obtain ⟨a, b⟩ := kv
    unfold upsert
    by_cases h : a = k
    · rw [if_pos h]
      simp [lookupRaw]
    · rw [if_neg h]
      simp [lookupRaw, h, ih]

lemma lookupRaw_upsert_other (m : List (Str × Str)) (k k' v : Str) (h : k' ≠ k) :
    lookupRaw k (upsert m k' v) = lookupRaw k m := by
  induction m with
  | nil => simp [upsert, lookupRaw, h]
  | cons kv rest ih =>
    obtain ⟨a, b⟩ := kv
    unfold upsert
    by_cases ha : a = k'
    · rw [if_pos ha]
      subst ha
      simp [lookupRaw, h]
    · rw [if_neg ha]
      by_cases hak : a = k <;> simp [lookupRaw, hak, ih]

lemma lookupRaw_foldUpsert (ps : List (Str × Str)) :
    ∀ (m : List (Str × Str)) (k : Str),
      lookupRaw k (foldUpsert m ps)
        = match ps.reverse.find? (fun kv => kv.1 == k) with
          | some kv => some kv.2
          | none => lookupRaw k m := by
  induction ps using List.reverseRecOn with
  | nil => intro m k; rfl
  | append_singleton qs q ih =>
    intro m k
    have hfold : foldUpsert m (qs ++ [ q ]) = upsert (foldUpsert m qs) q.1 q.2 := by
      rw [foldUpsert_append]
      rfl
    rw [hfold, List.reverse_append,
      show ([ q ].reverse ++ qs.reverse) = q :: qs.reverse from by simp]
    by_cases hq : q.1 = k
    · have hb' : (fun kv => kv.1 == k) q = true := by simp [hq]
      rw [List.find?_cons_of_pos qs.reverse hb']
      rw [← hq, lookupRaw_upsert_self]
    · have hb' : ¬((fun kv => kv.1 == k) q = true) := by simp [hq]
      rw [List.find?_cons_of_neg qs.reverse hb']
      rw [lookupRaw_upsert_other _ _ _ _ hq]
      exact ih m k

lemma find?_eq_head_filter {α : Type} (p : α → Bool) (l : List α) :
    l.find? p = (l.filter p).head? := by
  induction l with
  | nil => rfl
  | cons a rest ih =>
    by_cases h : p a = true
    · rw [List.find?_cons_of_pos _ h, List.filter_cons_of_pos h]
      rfl
    · rw [List.find?_cons_of_neg _ h, List.filter_cons_of_neg (by simpa using h), ih]

lemma find?_filter_impl {α : Type} (p q : α → Bool) (l : List α)
    (hpq : ∀ x, p x = true → q x = true) :
    (l.filter q).find? p = l.find? p := by
  induction l with
  | nil => rfl
  | cons a rest ih =>
    by_cases hqa : q a = true
    · rw [List.filter_cons_of_pos hqa]
      by_cases hpa : p a = true
      · rw [List.find?_cons_of_pos _ hpa, List.find?_cons_of_pos _ hpa]
      · rw [List.find?_cons_of_neg _ hpa, List.find?_cons_of_neg _ hpa, ih]
    · have hpa : ¬(p a = true) := fun hp => hqa (hpq a hp)
      rw [List.filter_cons_of_neg (by simpa using hqa), List.find?_cons_of_neg _ hpa, ih]

lemma upsert_all_keys (m : List (Str × Str)) (k v : Str)
    (hm : m.all (fun kv => !kv.1.isEmpty) = true) (hk : k.isEmpty = false) :
    (upsert m k v).all (fun kv => !kv.1.isEmpty) = true := by
  induction m with
  | nil => simp [upsert, hk]
  | cons q rest ih =>
    obtain ⟨a, b⟩ := q
    rw [List.all_cons] at hm
    have hm1 := (Bool.and_eq_true_iff.mp hm).1
    have hm2 := (Bool.and_eq_true_iff.mp hm).2
    unfold upsert
    by_cases h : a = k
    · rw [if_pos h, List.all_cons, hm2]
      simp [hk]
    · rw [if_neg h, List.all_cons, ih hm2]
      simp only [hm1]
      rfl

/-- Claim C4, counterexample: a section introduced by a two-hash heading
line whose heading text trims to the empty string exists in the Section
decomposition, yet its body is silently dropped from the raw mapping (the
falsy-key guard skips the save). -/
theorem C4_counterexample :
    specSections [ "## ".data, "- x".data ] = [ ([], "- x".data) ] ∧
      (parseTrainingPlan "## \n- x".data).map ParsedPlan.rawSections = some [] := by
  constructor
  · decide
  · decide

/-- Claim C4 (amended): every Section whose trimmed heading is nonempty is
retained verbatim in the raw mapping under its heading key, the last
occurrence of a duplicate heading winning; sections whose heading trims to
the empty string are dropped, and every key of the raw mapping is a
nonempty heading. -/
theorem C4_theorem :
    (∀ (ls : List Str) (h b : Str), h ≠ [] →
      ((specSections ls).filter (fun kv => kv.1 == h)).getLast? = some (h, b) →
      lookupRaw h (parseLines ls).rawSections = some b) ∧
      ∀ ls : List Str,
        ((parseLines ls).rawSections).all (fun kv => !kv.1.isEmpty) = true := by
  constructor
  · intro ls h b hne hlast
    rw [parseLines_raw, scanDoc_raw_spec, lookupRaw_foldUpsert]
    have hie : h.isEmpty = false := by
      cases h with
      | nil => exact absurd rfl hne
      | cons a rest => rfl
    have e0 : ((specSections ls).filter (fun kv => !kv.1.isEmpty)).reverse
        = (specSections ls).reverse.filter (fun kv => !kv.1.isEmpty) :=
      (List.filter_reverse _ _).symm
    have e1 : ((specSections ls).reverse.filter (fun kv => !kv.1.isEmpty)).find?
          (fun kv => kv.1 == h)
        = (specSections ls).reverse.find? (fun kv => kv.1 == h) := by
      apply find?_filter_impl
      intro x hx
      have hxe : x.1 = h := by simpa using hx
      simp [hxe, hie]
    have e2 : (specSections ls).reverse.find? (fun kv => kv.1 == h) = some (h, b) := by
      rw [find?_eq_head_filter, List.filter_reverse, List.head?_reverse]
      exact hlast
    rw [e0, e1, e2]
  · intro ls
    rw [parseLines_raw, scanDoc_raw_spec]
    have hstep : ∀ (ps : List (Str × Str)) (m : List (Str × Str)),
        m.all (fun kv => !kv.1.isEmpty) = true →
        ps.all (fun kv => !kv.1.isEmpty) = true →
        (foldUpsert m ps).all (fun kv => !kv.1.isEmpty) = true := by
      intro ps
      induction ps with
      | nil => intro m hm _; exact hm
      | cons q rest ih =>
        intro m hm hps
        rw [List.all_cons] at hps
        have hq := (Bool.and_eq_true_iff.mp hps).1
        have hrest := (Bool.and_eq_true_iff.mp hps).2
        rw [foldUpsert_cons]
        apply ih
        · apply upsert_all_keys _ _ _ hm
          simpa using hq
        · exact hrest
    apply hstep
    · rfl
    · rw [List.all_eq_true]
      intro kv hkv
      exact (List.mem_filter.mp hkv).2

/-- Witness for C4 at a concrete one-section document. -/
theorem C4_witness :
    lookupRaw "A".data (parseLines [ "## A".data, "x".data ]).rawSections
      = some ("x".data) :=
  C4_theorem.1 [ "## A".data, "x".data ] ("A".data) ("x".data) (by decide) (by decide)
